import Mathlib

/-!
# UI watchdog (qt/ui_watchdog/uiwatchdog.h)

A shallow embedding of `UiWatchdogWorker` and `UiWatchdog`.

* Time is a monotonic millisecond clock; every operation that reads the clock
  takes the current instant `now : Int` as an argument.
* Each member function returns the new object state together with the list of
  observable actions it performed, in program order.
* A member function returns `none` when it does not return: when it
  dereferences a null pointer, or when the program ends inside it.
* `Q_OS_WIN : Bool` says whether the translation unit is compiled with the
  macro `Q_OS_WIN` defined.
-/

namespace KDToolBox

/-! ## Constants -/

/-- The constant `MAX_TIME_BLOCKED`, in milliseconds. -/
def MAX_TIME_BLOCKED : Int := 300

/-- Enumerator `UiWatchdogWorker::OptionNone`. -/
def OptionNone : Int := 0

/-- Enumerator `UiWatchdogWorker::OptionDebugBreak`. -/
def OptionDebugBreak : Int := 1

/-- Default argument of `UiWatchdogWorker::start`. -/
def workerDefaultFrequency : Int := 200

/-- Default argument of `UiWatchdog::start`. -/
def watchdogDefaultFrequency : Int := 100

/-- The bound passed to `QThread::wait` in `UiWatchdog::stop`. -/
def joinBound : Int := 2000

/-! ## Observable actions -/

/-- The observable actions of the two classes, one constructor per statement
that has an effect outside the object's own fields. -/
inductive Action where
  /-- Constructing a `QMutexLocker` on `m_mutex`. -/
  | mutexLock
  /-- Leaving the scope of a `QMutexLocker` on `m_mutex`. -/
  | mutexUnlock
  /-- The call `m_elapsedTimeSinceLastBeat.elapsed()`, with the value it returned. -/
  | clockRead (elapsed : Int)
  /-- A call of `start()` or `restart()` on `m_elapsedTimeSinceLastBeat`. -/
  | clockWrite
  /-- The call `m_watchTimer->start(msec)`. -/
  | watchTimerStart (msec : Int)
  /-- The call `m_watchTimer->stop()`. -/
  | watchTimerStop
  /-- The statement `qDebug() << "UI is blocked !" << elapsed`. -/
  | blockedLog (elapsed : Int)
  /-- The platform call `DebugBreak()`. -/
  | osDebugBreak
  /-- The call `m_uiTimer->start(msec)`. -/
  | uiTimerStart (msec : Int)
  /-- The call `m_uiTimer->stop()`. -/
  | uiTimerStop
  /-- The expression `new UiWatchdogWorker(options)`. -/
  | newWorker (options : Int)
  /-- The expression `new QThread(this)`. -/
  | newThread
  /-- The call `m_worker->moveToThread(m_watchDogThread)`. -/
  | moveToThread
  /-- The call `m_watchDogThread->start()`. -/
  | threadStart
  /-- The `connect` of `QThread::started` to the lambda capturing `msec`. -/
  | connectStarted (msec : Int)
  /-- The call `m_worker->deleteLater()`. -/
  | workerDeleteLater
  /-- The call `m_watchDogThread->quit()`. -/
  | threadQuit
  /-- The call `m_watchDogThread->wait(msec)`, with the value it returned. -/
  | threadWait (msec : Int) (didquit : Bool)
  /-- The statement `qCDebug(uidelays) << "watch thread quit?" << didquit`, on
  the category whose debug output the `UiWatchdog` constructor switches off. -/
  | quitLog (didquit : Bool)
  /-- The statement `delete m_watchDogThread`. -/
  | deleteThread
  deriving DecidableEq, Repr

/-! ## Qt value types -/

/-- A `QTimer`: `active` is set by `start` and cleared by `stop`, and
`interval` is the argument of the last `start`. -/
structure QTimer where
  active : Bool
  interval : Int
  deriving DecidableEq, Repr

/-- A freshly constructed `QTimer`. -/
def QTimer.new : QTimer := { active := false, interval := 0 }

/-- The call `QTimer::start(msec)`. -/
def QTimer.start (_t : QTimer) (msec : Int) : QTimer :=
  { active := true, interval := msec }

/-- The call `QTimer::stop()`. -/
def QTimer.stop (t : QTimer) : QTimer :=
  { t with active := false }

/-- A `QElapsedTimer`: the instant of the last `start()` or `restart()`, or
`none` while the timer has never been started. -/
structure QElapsedTimer where
  t1 : Option Int
  deriving DecidableEq, Repr

/-- A freshly constructed, not yet started `QElapsedTimer`. -/
def QElapsedTimer.new : QElapsedTimer := { t1 := none }

/-- The call `QElapsedTimer::start()` at instant `now`. -/
def QElapsedTimer.start (_c : QElapsedTimer) (now : Int) : QElapsedTimer :=
  { t1 := some now }

/-- The call `QElapsedTimer::restart()` at instant `now`; the caller discards
the returned value, so only the new reference instant is kept. -/
def QElapsedTimer.restart (_c : QElapsedTimer) (now : Int) : QElapsedTimer :=
  { t1 := some now }

/-- The call `QElapsedTimer::elapsed()` at instant `now`: the milliseconds
since the last start, undefined (`none`) on a timer that was never started. -/
def QElapsedTimer.elapsed (c : QElapsedTimer) (now : Int) : Option Int :=
  match c.t1 with
  | none => none
  | some t => some (now - t)

/-- A `QThread` owned by the watchdog: whether `start()` was called on it and
the `frequency_msecs` captured by the lambda connected to its `started` signal. -/
structure QThread where
  started : Bool
  startedSlot : Option Int
  deriving DecidableEq, Repr

/-- The statement `delete` on a `QThread`, which runs `QThread::~QThread`.
`running` says whether the thread is still running. Qt ends the program when a
running `QThread` is destroyed, so the statement does not return then. -/
def QThread.destroy (_th : QThread) (running : Bool) : Option (List Action) :=
  if running then none else some [Action.deleteThread]

/-! ## UiWatchdogWorker -/

/-- The fields of `UiWatchdogWorker` (the mutex appears through its lock and
unlock actions). -/
structure UiWatchdogWorker where
  m_watchTimer : QTimer
  m_elapsedTimeSinceLastBeat : QElapsedTimer
  m_options : Int
  deriving DecidableEq, Repr

namespace UiWatchdogWorker

/-- The constructor `UiWatchdogWorker(Options options)`. -/
def new (options : Int) : UiWatchdogWorker :=
  { m_watchTimer := QTimer.new
    m_elapsedTimeSinceLastBeat := QElapsedTimer.new
    m_options := options }

/-- The member `start(int frequency_msecs)`. -/
def start (w : UiWatchdogWorker) (frequency_msecs : Int) (now : Int) :
    UiWatchdogWorker × List Action :=
  ({ w with
      m_watchTimer := w.m_watchTimer.start frequency_msecs
      m_elapsedTimeSinceLastBeat := w.m_elapsedTimeSinceLastBeat.start now },
   [Action.watchTimerStart frequency_msecs, Action.clockWrite])

/-- The member `stop()`. -/
def stop (w : UiWatchdogWorker) : UiWatchdogWorker × List Action :=
  ({ w with m_watchTimer := w.m_watchTimer.stop }, [Action.watchTimerStop])

/-- The member `debugBreak()`: its body is the call `DebugBreak()` when
`Q_OS_WIN` is defined and empty otherwise. -/
def debugBreak (Q_OS_WIN : Bool) : List Action :=
  if Q_OS_WIN then [Action.osDebugBreak] else []

/-- The part of `checkUI()` after the locked block, for the value `elapsed`
read from the clock. -/
def checkElapsed (Q_OS_WIN : Bool) (options : Int) (elapsed : Int) : List Action :=
  if elapsed > MAX_TIME_BLOCKED then
    Action.blockedLog elapsed ::
      (if Int.land options OptionDebugBreak ≠ 0 then debugBreak Q_OS_WIN else [])
  else []

/-- The member `checkUI()` at instant `now`. It assigns no field, so only its
actions are returned. -/
def checkUI (Q_OS_WIN : Bool) (w : UiWatchdogWorker) (now : Int) : Option (List Action) :=
  match w.m_elapsedTimeSinceLastBeat.elapsed now with
  | none => none
  | some elapsed =>
    some ([Action.mutexLock, Action.clockRead elapsed, Action.mutexUnlock]
            ++ checkElapsed Q_OS_WIN w.m_options elapsed)

/-- The member `reset()` at instant `now`. -/
def reset (w : UiWatchdogWorker) (now : Int) : UiWatchdogWorker × List Action :=
  ({ w with m_elapsedTimeSinceLastBeat := w.m_elapsedTimeSinceLastBeat.restart now },
   [Action.mutexLock, Action.clockWrite, Action.mutexUnlock])

end UiWatchdogWorker

/-! ## UiWatchdog -/

/-- The fields of `UiWatchdog`; a null pointer is `none`. -/
structure UiWatchdog where
  m_uiTimer : QTimer
  m_watchDogThread : Option QThread
  m_worker : Option UiWatchdogWorker
  m_options : Int
  deriving DecidableEq, Repr

namespace UiWatchdog

/-- The constructor `UiWatchdog(Options options)`. -/
def new (options : Int) : UiWatchdog :=
  { m_uiTimer := QTimer.new
    m_watchDogThread := none
    m_worker := none
    m_options := options }

/-- The member `start(int frequency_msecs)`. -/
def start (s : UiWatchdog) (frequency_msecs : Int) : UiWatchdog × List Action :=
  match s.m_worker with
  | some _ => (s, [])
  | none =>
    ({ s with
        m_uiTimer := s.m_uiTimer.start frequency_msecs
        m_worker := some (UiWatchdogWorker.new s.m_options)
        m_watchDogThread := some { started := true, startedSlot := some frequency_msecs } },
     [Action.uiTimerStart frequency_msecs, Action.newWorker s.m_options, Action.newThread,
      Action.moveToThread, Action.threadStart, Action.connectStarted frequency_msecs])

/-- The member `stop()`; `didquit` is the value returned by
`m_watchDogThread->wait(2000)`: `false` means the thread has not finished, and
it is then still running when `delete m_watchDogThread` destroys it. -/
def stop (s : UiWatchdog) (didquit : Bool) : Option (UiWatchdog × List Action) :=
  match s.m_worker with
  | none => some (s, [])
  | some _ =>
    match s.m_watchDogThread with
    | none => none
    | some th =>
      match th.destroy (!didquit) with
      | none => none
      | some deleted =>
        some ({ s with
                  m_uiTimer := s.m_uiTimer.stop
                  m_watchDogThread := none
                  m_worker := none },
              [Action.uiTimerStop, Action.workerDeleteLater, Action.threadQuit,
               Action.threadWait joinBound didquit, Action.quitLog didquit] ++ deleted)

/-- The member `onUiBeat()` at instant `now`. -/
def onUiBeat (s : UiWatchdog) (now : Int) : Option (UiWatchdog × List Action) :=
  match s.m_worker with
  | none => none
  | some w => some ({ s with m_worker := some (w.reset now).1 }, (w.reset now).2)

/-- The lambda connected to `QThread::started` in `start`, with its captured
`frequency_msecs`, run at instant `now`. -/
def startedLambda (s : UiWatchdog) (frequency_msecs : Int) (now : Int) :
    Option (UiWatchdog × List Action) :=
  match s.m_worker with
  | none => none
  | some w =>
    some ({ s with m_worker := some (w.start frequency_msecs now).1 },
          (w.start frequency_msecs now).2)

end UiWatchdog

/-! ## Event loop -/

/-- What can happen to a watchdog: the two public calls, the delivery of the
thread's `started` signal, and the timeouts of the two timers. -/
inductive Event where
  | callStart (frequency_msecs : Int)
  | callStop (didquit : Bool)
  | threadStarted (now : Int)
  | uiTimeout (now : Int)
  | watchTimeout (now : Int)
  deriving DecidableEq, Repr

/-- One event. A signal runs the slot connected to it, and a timer only times
out while it is active: `m_uiTimer` is connected to `onUiBeat`, `m_watchTimer`
to `checkUI`, and `QThread::started` to the lambda of `start`. -/
def dispatch (Q_OS_WIN : Bool) (s : UiWatchdog) : Event → Option (UiWatchdog × List Action)
  | Event.callStart f => some (s.start f)
  | Event.callStop d => s.stop d
  | Event.threadStarted now =>
    match s.m_watchDogThread with
    | none => some (s, [])
    | some th =>
      match th.startedSlot with
      | none => some (s, [])
      | some f => s.startedLambda f now
  | Event.uiTimeout now =>
    if s.m_uiTimer.active then s.onUiBeat now else some (s, [])
  | Event.watchTimeout now =>
    match s.m_worker with
    | none => some (s, [])
    | some w =>
      if w.m_watchTimer.active then
        match w.checkUI Q_OS_WIN now with
        | none => none
        | some acts => some (s, acts)
      else some (s, [])

/-- A sequence of events, with the actions of all of them in order. -/
def run (Q_OS_WIN : Bool) (s : UiWatchdog) : List Event → Option (UiWatchdog × List Action)
  | [] => some (s, [])
  | e :: es =>
    match dispatch Q_OS_WIN s e with
    | none => none
    | some (s1, a1) =>
      match run Q_OS_WIN s1 es with
      | none => none
      | some (s2, a2) => some (s2, a1 ++ a2)

/-! ## Timelines of heartbeats and polls -/

/-- A timestamped heartbeat tick or poll. -/
inductive Tick where
  | beat (t : Int)
  | poll (t : Int)
  deriving DecidableEq, Repr

/-- The instant of a tick. -/
def Tick.time : Tick → Int
  | Tick.beat t => t
  | Tick.poll t => t

/-- The event a tick stands for. -/
def Tick.toEvent : Tick → Event
  | Tick.beat t => Event.uiTimeout t
  | Tick.poll t => Event.watchTimeout t

/-- Number of alerts (`qDebug() << "UI is blocked !"`) in a trace. -/
def alertCount : List Action → Nat
  | [] => 0
  | Action.blockedLog _ :: r => alertCount r + 1
  | _ :: r => alertCount r

/-- Number of `DebugBreak()` calls in a trace. -/
def breakCount : List Action → Nat
  | [] => 0
  | Action.osDebugBreak :: r => breakCount r + 1
  | _ :: r => breakCount r

/-- The values returned by the clock reads of a trace, in order. -/
def clockReads : List Action → List Int
  | [] => []
  | Action.clockRead e :: r => e :: clockReads r
  | _ :: r => clockReads r

/-- The trace of a timeline of ticks on a started worker whose clock was last
reset at `last`: a beat resets the clock, a poll reads it and checks the value. -/
def tickTrace (Q_OS_WIN : Bool) (options : Int) : Int → List Tick → List Action
  | _, [] => []
  | _, Tick.beat t :: r =>
    [Action.mutexLock, Action.clockWrite, Action.mutexUnlock]
      ++ tickTrace Q_OS_WIN options t r
  | last, Tick.poll t :: r =>
    ([Action.mutexLock, Action.clockRead (t - last), Action.mutexUnlock]
      ++ UiWatchdogWorker.checkElapsed Q_OS_WIN options (t - last))
      ++ tickTrace Q_OS_WIN options last r

/-- The instant of the last clock reset after a timeline, `last` when the
timeline has no beat. -/
def lastReset : Int → List Tick → Int
  | last, [] => last
  | _, Tick.beat t :: r => lastReset t r
  | last, Tick.poll _ :: r => lastReset last r

/-- For every poll of a timeline, in order, the time since the most recent
heartbeat before it (since `last` when there is none). -/
def elapsedSinceLastBeat : Int → List Tick → List Int
  | _, [] => []
  | _, Tick.beat t :: r => elapsedSinceLastBeat t r
  | last, Tick.poll t :: r => (t - last) :: elapsedSinceLastBeat last r

/-- The ticks of a timeline are in chronological order and none is before `prev`. -/
def chronological : Int → List Tick → Bool
  | _, [] => true
  | prev, e :: r => decide (prev ≤ e.time) && chronological e.time r

/-- Every heartbeat of the timeline arrives less than `limit` after the
previous one (after `last` for the first). -/
def beatGapsBelow (limit : Int) : Int → List Tick → Bool
  | _, [] => true
  | last, Tick.beat t :: r => decide (t - last < limit) && beatGapsBelow limit t r
  | last, Tick.poll _ :: r => beatGapsBelow limit last r

/-- The timeline is empty or its last tick is a heartbeat: every poll lies
between two heartbeats. -/
def endsWithBeat : List Tick → Bool
  | [] => true
  | Tick.beat _ :: [] => true
  | Tick.poll _ :: [] => false
  | _ :: e :: r => endsWithBeat (e :: r)

/-- The first `n` polls of a poll timer of interval `P` started at `s`:
at `s + P`, `s + 2 * P`, and so on. -/
def pollsEvery (s P : Int) (n : Nat) : List Tick :=
  (List.range n).map (fun (j : Nat) => Tick.poll (s + ((j : Int) + 1) * P))

/-- Heartbeats every 50 ms up to 5000 ms, with a poll every 200 ms placed just
before the heartbeat of the same instant. -/
def steadyTimeline : List Tick :=
  (List.range 100).flatMap (fun (k : Nat) =>
    (if (k + 1) % 4 = 0 then [Tick.poll (50 * ((k : Int) + 1))] else [])
      ++ [Tick.beat (50 * ((k : Int) + 1))])

/-- A watchdog after `start(frequency_msecs)` on a fresh object and the
delivery of the thread's `started` signal at instant `t0`. -/
def runningAt (options frequency_msecs t0 : Int) : UiWatchdog :=
  { m_uiTimer := { active := true, interval := frequency_msecs }
    m_watchDogThread := some { started := true, startedSlot := some frequency_msecs }
    m_worker := some
      { m_watchTimer := { active := true, interval := frequency_msecs }
        m_elapsedTimeSinceLastBeat := { t1 := some t0 }
        m_options := options }
    m_options := options }

/-- Lock discipline of a trace, starting with the mutex held or not: the mutex
is locked only when free and unlocked only when held, the clock is read and
written only while it is held, the alert actions run only while it is free,
and it is free at the end. -/
def lockDiscipline : Bool → List Action → Bool
  | held, [] => !held
  | held, Action.mutexLock :: r => !held && lockDiscipline true r
  | held, Action.mutexUnlock :: r => held && lockDiscipline false r
  | held, Action.clockRead _ :: r => held && lockDiscipline held r
  | held, Action.clockWrite :: r => held && lockDiscipline held r
  | held, Action.blockedLog _ :: r => !held && lockDiscipline held r
  | held, Action.osDebugBreak :: r => !held && lockDiscipline held r
  | held, _ :: r => lockDiscipline held r

/-- Number of `new QThread` in a trace. -/
def threadsCreated (acts : List Action) : Nat := acts.count Action.newThread

/-- Number of `delete m_watchDogThread` in a trace. -/
def threadsDeleted (acts : List Action) : Nat := acts.count Action.deleteThread

/-- The members that hold while the watchdog is Running agree, and a worker
whose poll timer is active has a started clock. -/
def Consistent (s : UiWatchdog) : Prop :=
  (s.m_worker.isSome = s.m_watchDogThread.isSome) ∧
  (s.m_watchDogThread.isSome = s.m_uiTimer.active) ∧
  (∀ w, s.m_worker = some w → w.m_watchTimer.active = true →
    w.m_elapsedTimeSinceLastBeat.t1.isSome = true)

/-- Number of live `QThread` objects the watchdog holds: 1 when
`m_watchDogThread` is set, 0 when it is null. -/
def heldThreads (s : UiWatchdog) : Nat :=
  if s.m_watchDogThread.isSome then 1 else 0

/-- Both copies of the options, the watchdog's and its worker's, are `options`. -/
def OptionsAre (options : Int) (s : UiWatchdog) : Prop :=
  s.m_options = options ∧ ∀ w, s.m_worker = some w → w.m_options = options

/-! ## Shared lemmas -/

theorem alertCount_append (a b : List Action) :
    alertCount (a ++ b) = alertCount a + alertCount b := by
  induction a with
  | nil => simp [alertCount]
  | cons x r ih =>
    cases x <;> simp [alertCount, ih]
    omega

theorem clockReads_append (a b : List Action) :
    clockReads (a ++ b) = clockReads a ++ clockReads b := by
  induction a with
  | nil => simp [clockReads]
  | cons x r ih => cases x <;> simp [clockReads, ih]

theorem alertCount_checkElapsed (Q_OS_WIN : Bool) (options e : Int) :
    alertCount (UiWatchdogWorker.checkElapsed Q_OS_WIN options e)
      = if MAX_TIME_BLOCKED < e then 1 else 0 := by
  unfold UiWatchdogWorker.checkElapsed UiWatchdogWorker.debugBreak
  by_cases h : e > MAX_TIME_BLOCKED
  · have h2 : MAX_TIME_BLOCKED < e := h
    by_cases hb : Int.land options OptionDebugBreak ≠ 0
    · cases Q_OS_WIN <;> simp [h2, hb, alertCount]
    · simp [h2, hb, alertCount]
  · have h2 : ¬ MAX_TIME_BLOCKED < e := h
    simp [h, h2, alertCount]

theorem clockReads_checkElapsed (Q_OS_WIN : Bool) (options e : Int) :
    clockReads (UiWatchdogWorker.checkElapsed Q_OS_WIN options e) = [] := by
  unfold UiWatchdogWorker.checkElapsed UiWatchdogWorker.debugBreak
  by_cases h : e > MAX_TIME_BLOCKED
  · cases Q_OS_WIN <;> by_cases hb : Int.land options OptionDebugBreak ≠ 0 <;>
      simp [h, hb, clockReads]
  · simp [h, clockReads]

/-- Running a timeline of ticks on a Running watchdog with a started worker
never fails, leaves everything but the clock as it was, and produces
`tickTrace`. -/
theorem run_ticks (Q_OS_WIN : Bool) (tl : List Tick) :
    ∀ (s : UiWatchdog) (w : UiWatchdogWorker) (t0 : Int),
      s.m_uiTimer.active = true → s.m_worker = some w →
      w.m_watchTimer.active = true → w.m_elapsedTimeSinceLastBeat.t1 = some t0 →
      run Q_OS_WIN s (tl.map Tick.toEvent)
        = some ({ s with
                  m_worker := some { w with
                    m_elapsedTimeSinceLastBeat := QElapsedTimer.mk (some (lastReset t0 tl)) } },
                tickTrace Q_OS_WIN w.m_options t0 tl) := by
  induction tl with
  | nil =>
    intro s w t0 _ hw _ hc
    obtain ⟨ui, th, wk, op⟩ := s
    obtain ⟨wt, ⟨c⟩, o⟩ := w
    simp only at hw hc
    subst hw
    subst hc
    simp [run, lastReset, tickTrace]
  | cons e r ih =>
    intro s w t0 hui hw hwt hc
    obtain ⟨ui, th, wk, op⟩ := s
    obtain ⟨wt, ⟨c⟩, o⟩ := w
    simp only at hui hw hwt hc
    subst hw
    subst hc
    cases e with
    | beat t =>
      have step := ih
        { m_uiTimer := ui, m_watchDogThread := th,
          m_worker := some { m_watchTimer := wt, m_elapsedTimeSinceLastBeat := { t1 := some t },
                             m_options := o },
          m_options := op }
        { m_watchTimer := wt, m_elapsedTimeSinceLastBeat := { t1 := some t }, m_options := o }
        t hui rfl hwt rfl
      simp only [List.map_cons, Tick.toEvent, run, dispatch, hui, if_true, UiWatchdog.onUiBeat,
        UiWatchdogWorker.reset, QElapsedTimer.restart]
      rw [step]
      simp [lastReset, tickTrace]
    | poll t =>
      have step := ih
        { m_uiTimer := ui, m_watchDogThread := th,
          m_worker := some { m_watchTimer := wt, m_elapsedTimeSinceLastBeat := { t1 := some t0 },
                             m_options := o },
          m_options := op }
        { m_watchTimer := wt, m_elapsedTimeSinceLastBeat := { t1 := some t0 }, m_options := o }
        t0 hui rfl hwt rfl
      simp only [List.map_cons, Tick.toEvent, run, dispatch, hwt, if_true,
        UiWatchdogWorker.checkUI, QElapsedTimer.elapsed]
      rw [step]
      simp [lastReset, tickTrace]

theorem clockReads_tickTrace (Q_OS_WIN : Bool) (options : Int) (tl : List Tick) :
    ∀ last, clockReads (tickTrace Q_OS_WIN options last tl) = elapsedSinceLastBeat last tl := by
  induction tl with
  | nil => intro last; simp [tickTrace, clockReads, elapsedSinceLastBeat]
  | cons e r ih =>
    intro last
    cases e with
    | beat t => simp [tickTrace, clockReads, elapsedSinceLastBeat, ih]
    | poll t =>
      simp [tickTrace, clockReads, elapsedSinceLastBeat, ih, clockReads_append,
        clockReads_checkElapsed]

/-- In a chronological timeline that ends with a heartbeat and whose heartbeat
gaps are below the limit, the first tick is less than the limit after `last`. -/
theorem head_within (limit : Int) (r : List Tick) :
    ∀ (e : Tick) (prev last : Int), chronological prev (e :: r) = true →
      beatGapsBelow limit last (e :: r) = true →
      endsWithBeat (e :: r) = true → e.time - last < limit := by
  induction r with
  | nil =>
    intro e prev last _ hgap hend
    cases e with
    | beat t =>
      simp [beatGapsBelow] at hgap
      simpa [Tick.time] using hgap
    | poll t => simp [endsWithBeat] at hend
  | cons y ys ih =>
    intro e prev last hch hgap hend
    cases e with
    | beat t =>
      simp [beatGapsBelow] at hgap
      simpa [Tick.time] using hgap.1
    | poll t =>
      simp only [chronological, Bool.and_eq_true, decide_eq_true_eq] at hch
      have hgap2 : beatGapsBelow limit last (y :: ys) = true := by
        simpa [beatGapsBelow] using hgap
      have hend2 : endsWithBeat (y :: ys) = true := by
        simpa [endsWithBeat] using hend
      have hch2 : chronological (Tick.poll t).time (y :: ys) = true := by
        simp only [chronological, Bool.and_eq_true, decide_eq_true_eq]
        exact hch.2
      have hy := ih y (Tick.poll t).time last hch2 hgap2 hend2
      have hle : (Tick.poll t).time ≤ y.time := hch.2.1
      have ht : (Tick.poll t).time = t := rfl
      rw [ht] at hle ⊢
      omega

theorem alertCount_tickTrace_zero (Q_OS_WIN : Bool) (options : Int) (tl : List Tick) :
    ∀ (prev last : Int), chronological prev tl = true →
      beatGapsBelow MAX_TIME_BLOCKED last tl = true → endsWithBeat tl = true →
      alertCount (tickTrace Q_OS_WIN options last tl) = 0 := by
  induction tl with
  | nil => intro _ _ _ _ _; simp [tickTrace, alertCount]
  | cons e r ih =>
    intro prev last hch hgap hend
    have hhead := head_within MAX_TIME_BLOCKED r e prev last hch hgap hend
    have hch2 : chronological e.time r = true := by
      simp only [chronological, Bool.and_eq_true, decide_eq_true_eq] at hch
      exact hch.2
    have hend2 : endsWithBeat r = true := by
      cases r with
      | nil => simp [endsWithBeat]
      | cons y ys => simpa [endsWithBeat] using hend
    cases e with
    | beat t =>
      have hgap2 : beatGapsBelow MAX_TIME_BLOCKED t r = true := by
        simp [beatGapsBelow] at hgap
        exact hgap.2
      simp [tickTrace, alertCount, ih t t hch2 hgap2 hend2]
    | poll t =>
      have hgap2 : beatGapsBelow MAX_TIME_BLOCKED last r = true := by
        simpa [beatGapsBelow] using hgap
      have hno : ¬ MAX_TIME_BLOCKED < t - last := by
        simp only [Tick.time] at hhead
        omega
      simp [tickTrace, alertCount, alertCount_append, alertCount_checkElapsed, hno,
        ih t last hch2 hgap2 hend2]

/-- Polls alone leave the watchdog as it is and never fail on a started worker. -/
theorem run_polls (Q_OS_WIN : Bool) (s : UiWatchdog) (w : UiWatchdogWorker) (t0 : Int)
    (hw : s.m_worker = some w) (hwt : w.m_watchTimer.active = true)
    (hc : w.m_elapsedTimeSinceLastBeat.t1 = some t0) (ts : List Int) :
    run Q_OS_WIN s ((ts.map Tick.poll).map Tick.toEvent)
      = some (s, tickTrace Q_OS_WIN w.m_options t0 (ts.map Tick.poll)) := by
  induction ts with
  | nil => simp [run, tickTrace]
  | cons t r ih =>
    simp only [List.map_cons, Tick.toEvent, run, dispatch, hw, hwt, if_true,
      UiWatchdogWorker.checkUI, QElapsedTimer.elapsed, hc]
    simp only [List.map_cons, Tick.toEvent] at ih
    rw [ih]
    simp [tickTrace]

/-- One poll on a started worker. -/
theorem dispatch_poll (Q_OS_WIN : Bool) (s : UiWatchdog) (w : UiWatchdogWorker) (t0 now : Int)
    (hw : s.m_worker = some w) (hwt : w.m_watchTimer.active = true)
    (hc : w.m_elapsedTimeSinceLastBeat.t1 = some t0) :
    dispatch Q_OS_WIN s (Event.watchTimeout now)
      = some (s, [Action.mutexLock, Action.clockRead (now - t0), Action.mutexUnlock]
                  ++ UiWatchdogWorker.checkElapsed Q_OS_WIN w.m_options (now - t0)) := by
  simp [dispatch, hw, hwt, UiWatchdogWorker.checkUI, QElapsedTimer.elapsed, hc]

theorem alertCount_poll (Q_OS_WIN : Bool) (options e : Int) :
    alertCount ([Action.mutexLock, Action.clockRead e, Action.mutexUnlock]
        ++ UiWatchdogWorker.checkElapsed Q_OS_WIN options e)
      = if MAX_TIME_BLOCKED < e then 1 else 0 := by
  rw [alertCount_append, alertCount_checkElapsed]
  simp [alertCount]

theorem threadsCreated_append (a b : List Action) :
    threadsCreated (a ++ b) = threadsCreated a + threadsCreated b := by
  simp [threadsCreated, List.count_append]

theorem threadsDeleted_append (a b : List Action) :
    threadsDeleted (a ++ b) = threadsDeleted a + threadsDeleted b := by
  simp [threadsDeleted, List.count_append]

theorem threads_checkElapsed (Q_OS_WIN : Bool) (options e : Int) :
    threadsCreated (UiWatchdogWorker.checkElapsed Q_OS_WIN options e) = 0 ∧
    threadsDeleted (UiWatchdogWorker.checkElapsed Q_OS_WIN options e) = 0 := by
  unfold UiWatchdogWorker.checkElapsed UiWatchdogWorker.debugBreak
  by_cases h : e > MAX_TIME_BLOCKED
  · cases Q_OS_WIN <;> by_cases hb : Int.land options OptionDebugBreak ≠ 0 <;>
      simp [h, hb, threadsCreated, threadsDeleted]
  · simp [h, threadsCreated, threadsDeleted]

/-- On a consistent watchdog an event either is a `stop` whose join timed out
on a Running watchdog, which does not return, or succeeds, keeps the watchdog
consistent and its options fixed, and creates or deletes a thread exactly when
the thread pointer is set or cleared. -/
theorem dispatch_cases (Q_OS_WIN : Bool) (options : Int) (s : UiWatchdog) (e : Event)
    (hc : Consistent s) (ho : OptionsAre options s) :
    (dispatch Q_OS_WIN s e = none ∧ e = Event.callStop false) ∨
    ∃ s1 a1, dispatch Q_OS_WIN s e = some (s1, a1) ∧ Consistent s1 ∧ OptionsAre options s1 ∧
      threadsCreated a1 + heldThreads s = threadsDeleted a1 + heldThreads s1 := by
  obtain ⟨⟨uia, uii⟩, th, wk, op⟩ := s
  obtain ⟨h1, h2, h3⟩ := hc
  obtain ⟨o1, o2⟩ := ho
  simp only at h1 h2 h3 o1 o2
  cases wk with
  | none =>
    cases th with
    | some t => simp at h1
    | none =>
      have hui : uia = false := by simpa using h2.symm
      subst hui
      right
      cases e with
      | callStart f =>
        refine ⟨_, _, rfl, ?_, ?_, ?_⟩
        · simp [Consistent, QTimer.start, UiWatchdogWorker.new, QTimer.new]
        · simp [OptionsAre, UiWatchdogWorker.new, o1]
        · simp [threadsCreated, threadsDeleted, heldThreads]
      | callStop d =>
        exact ⟨_, _, rfl, ⟨h1, h2, h3⟩, ⟨o1, o2⟩, by simp [threadsCreated, threadsDeleted]⟩
      | threadStarted now =>
        exact ⟨_, _, rfl, ⟨h1, h2, h3⟩, ⟨o1, o2⟩, by simp [threadsCreated, threadsDeleted]⟩
      | uiTimeout now =>
        exact ⟨_, _, rfl, ⟨h1, h2, h3⟩, ⟨o1, o2⟩, by simp [threadsCreated, threadsDeleted]⟩
      | watchTimeout now =>
        exact ⟨_, _, rfl, ⟨h1, h2, h3⟩, ⟨o1, o2⟩, by simp [threadsCreated, threadsDeleted]⟩
  | some w =>
    cases th with
    | none => simp at h1
    | some t =>
      have hui : uia = true := by simpa using h2.symm
      subst hui
      have ow : w.m_options = options := o2 w rfl
      cases e with
      | callStart f =>
        exact Or.inr
          ⟨_, _, rfl, ⟨h1, h2, h3⟩, ⟨o1, o2⟩, by simp [threadsCreated, threadsDeleted]⟩
      | callStop d =>
        cases d with
        | false => exact Or.inl ⟨rfl, rfl⟩
        | true =>
          right
          refine ⟨_, _, rfl, ?_, ?_, ?_⟩
          · simp [Consistent, QTimer.stop]
          · simp [OptionsAre, o1]
          · simp [threadsCreated, threadsDeleted, heldThreads]
      | threadStarted now =>
        right
        obtain ⟨ts, slot⟩ := t
        cases slot with
        | none =>
          exact ⟨_, _, rfl, ⟨h1, h2, h3⟩, ⟨o1, o2⟩, by simp [threadsCreated, threadsDeleted]⟩
        | some f =>
          refine ⟨_, _, rfl, ?_, ?_, ?_⟩
          · simp [Consistent, UiWatchdogWorker.start, QElapsedTimer.start]
          · simp [OptionsAre, UiWatchdogWorker.start, o1, ow]
          · simp [threadsCreated, threadsDeleted, heldThreads, UiWatchdogWorker.start]
      | uiTimeout now =>
        right
        refine ⟨_, _, rfl, ?_, ?_, ?_⟩
        · simp [Consistent, UiWatchdogWorker.reset, QElapsedTimer.restart]
        · simp [OptionsAre, UiWatchdogWorker.reset, o1, ow]
        · simp [threadsCreated, threadsDeleted, heldThreads, UiWatchdogWorker.reset]
      | watchTimeout now =>
        right
        obtain ⟨⟨wa, wi⟩, ⟨c⟩, o⟩ := w
        cases wa with
        | false =>
          exact ⟨_, _, rfl, ⟨h1, h2, h3⟩, ⟨o1, o2⟩, by simp [threadsCreated, threadsDeleted]⟩
        | true =>
          cases c with
          | none => simpa using h3 _ rfl rfl
          | some t0 =>
            refine ⟨_, _, rfl, ⟨h1, h2, h3⟩, ⟨o1, o2⟩, ?_⟩
            have := threads_checkElapsed Q_OS_WIN o (now - t0)
            simp only [threadsCreated, threadsDeleted] at this
            simp [threadsCreated, threadsDeleted, List.count_append, this.1, this.2]

/-- A run from a consistent watchdog that returns ends consistent, with the
options unchanged and the thread account balanced. -/
theorem run_preserves (Q_OS_WIN : Bool) (options : Int) (evs : List Event) :
    ∀ s : UiWatchdog, Consistent s → OptionsAre options s →
      ∀ s2 a, run Q_OS_WIN s evs = some (s2, a) →
        Consistent s2 ∧ OptionsAre options s2 ∧
        threadsCreated a + heldThreads s = threadsDeleted a + heldThreads s2 := by
  induction evs with
  | nil =>
    intro s hc ho s2 a hr
    simp only [run, Option.some.injEq, Prod.mk.injEq] at hr
    obtain ⟨rfl, rfl⟩ := hr
    exact ⟨hc, ho, by simp [threadsCreated, threadsDeleted]⟩
  | cons e es ih =>
    intro s hc ho s2 a hr
    rcases dispatch_cases Q_OS_WIN options s e hc ho with ⟨hd, _⟩ | ⟨s1, a1, hd, hc1, ho1, ht1⟩
    · simp [run, hd] at hr
    · simp only [run, hd] at hr
      cases hrest : run Q_OS_WIN s1 es with
      | none => simp [hrest] at hr
      | some r =>
        obtain ⟨s3, a3⟩ := r
        simp only [hrest, Option.some.injEq, Prod.mk.injEq] at hr
        obtain ⟨rfl, rfl⟩ := hr
        obtain ⟨hc2, ho2, ht2⟩ := ih s1 hc1 ho1 s3 a3 hrest
        refine ⟨hc2, ho2, ?_⟩
        rw [threadsCreated_append, threadsDeleted_append]
        omega

/-- A run from a consistent watchdog in which no join times out returns. -/
theorem run_returns (Q_OS_WIN : Bool) (options : Int) (evs : List Event) :
    ∀ s : UiWatchdog, Consistent s → OptionsAre options s →
      (∀ e ∈ evs, e ≠ Event.callStop false) →
      ∃ s2 a, run Q_OS_WIN s evs = some (s2, a) := by
  induction evs with
  | nil => intro s _ _ _; exact ⟨s, [], rfl⟩
  | cons e es ih =>
    intro s hc ho hne
    rcases dispatch_cases Q_OS_WIN options s e hc ho with ⟨_, he⟩ | ⟨s1, a1, hd, hc1, ho1, _⟩
    · exact absurd he (hne e (List.mem_cons_self e es))
    · obtain ⟨s2, a2, hr⟩ := ih s1 hc1 ho1
        (fun x hx => hne x (List.mem_cons_of_mem e hx))
      exact ⟨s2, a1 ++ a2, by simp [run, hd, hr]⟩

theorem new_consistent (options : Int) :
    Consistent (UiWatchdog.new options) ∧ OptionsAre options (UiWatchdog.new options) := by
  simp [Consistent, OptionsAre, UiWatchdog.new, QTimer.new]

theorem breakCount_checkElapsed (Q_OS_WIN : Bool) (options e : Int) :
    breakCount (UiWatchdogWorker.checkElapsed Q_OS_WIN options e)
      = if Q_OS_WIN = true ∧ MAX_TIME_BLOCKED < e ∧ Int.land options OptionDebugBreak ≠ 0
        then 1 else 0 := by
  unfold UiWatchdogWorker.checkElapsed UiWatchdogWorker.debugBreak
  by_cases h : MAX_TIME_BLOCKED < e
  · have h2 : e > MAX_TIME_BLOCKED := h
    cases Q_OS_WIN <;> by_cases hb : Int.land options OptionDebugBreak ≠ 0 <;>
      simp [h, hb, breakCount]
  · have h2 : ¬ e > MAX_TIME_BLOCKED := h
    simp [h, breakCount]

theorem lockDiscipline_checkElapsed (Q_OS_WIN : Bool) (options e : Int) :
    lockDiscipline false (UiWatchdogWorker.checkElapsed Q_OS_WIN options e) = true := by
  unfold UiWatchdogWorker.checkElapsed UiWatchdogWorker.debugBreak
  by_cases h : e > MAX_TIME_BLOCKED
  · cases Q_OS_WIN <;> by_cases hb : Int.land options OptionDebugBreak ≠ 0 <;>
      simp [h, hb, lockDiscipline]
  · simp [h, lockDiscipline]

/-! ## Polls and the threshold -/

/-- C1: a poll whose clock read returns `e` logs the alert exactly once when
`e > MAX_TIME_BLOCKED` and not at all otherwise, and this holds for the poll at
`now` whatever polls came before it (they leave the watchdog unchanged, so an
earlier alert does not suppress a later one). -/
theorem checkUI_alerts_iff_elapsed_exceeds (Q_OS_WIN : Bool) (w : UiWatchdogWorker)
    (now e : Int) (h : w.m_elapsedTimeSinceLastBeat.elapsed now = some e) :
    (∃ acts, w.checkUI Q_OS_WIN now = some acts ∧ clockReads acts = [e] ∧
        alertCount acts = if MAX_TIME_BLOCKED < e then 1 else 0) ∧
    (∀ (s : UiWatchdog) (earlier : List Int),
        s.m_worker = some w → w.m_watchTimer.active = true →
        ∃ acts0 acts,
          run Q_OS_WIN s ((earlier.map Tick.poll).map Tick.toEvent) = some (s, acts0) ∧
          dispatch Q_OS_WIN s (Event.watchTimeout now) = some (s, acts) ∧
          alertCount acts = if MAX_TIME_BLOCKED < e then 1 else 0) := by
  obtain ⟨wt, ⟨c⟩, o⟩ := w
  cases c with
  | none => simp [QElapsedTimer.elapsed] at h
  | some t0 =>
    simp only [QElapsedTimer.elapsed, Option.some.injEq] at h
    subst h
    refine ⟨⟨_, rfl, ?_, ?_⟩, ?_⟩
    · simp [clockReads, clockReads_append, clockReads_checkElapsed]
    · exact alertCount_poll Q_OS_WIN o (now - t0)
    · intro s earlier hw hwt
      refine ⟨_, _, run_polls Q_OS_WIN s _ t0 hw hwt rfl earlier,
        dispatch_poll Q_OS_WIN s _ t0 now hw hwt rfl, ?_⟩
      exact alertCount_poll Q_OS_WIN o (now - t0)

/-- C1, at the threshold: on a worker whose clock was reset at 0, the poll at
300 does not alert and the poll at 301 alerts once, also after earlier polls
that alerted. -/
theorem checkUI_alerts_iff_elapsed_exceeds_witness :
    ((runningAt OptionNone 100 0).m_worker.bind
        (fun w => (w.checkUI false 300).map alertCount) = some 0) ∧
    ((runningAt OptionNone 100 0).m_worker.bind
        (fun w => (w.checkUI false 301).map alertCount) = some 1) ∧
    (∃ acts0 acts,
      run false (runningAt OptionNone 100 0)
        (([400, 600].map Tick.poll).map Tick.toEvent)
          = some (runningAt OptionNone 100 0, acts0) ∧
      dispatch false (runningAt OptionNone 100 0) (Event.watchTimeout 800)
          = some (runningAt OptionNone 100 0, acts) ∧
      alertCount acts = 1) := by
  refine ⟨by decide, by decide, ?_⟩
  have h := (checkUI_alerts_iff_elapsed_exceeds false
    { m_watchTimer := { active := true, interval := 100 }
      m_elapsedTimeSinceLastBeat := { t1 := some 0 }
      m_options := OptionNone } 800 800 (by decide)).2
    (runningAt OptionNone 100 0) [400, 600] rfl rfl
  simpa [MAX_TIME_BLOCKED] using h

/-! ## Heartbeats reset the clock -/

/-- C2: on a Running watchdog whose worker has started, a timeline of heartbeat
ticks and polls never fails; every poll reads the time since the most recent
heartbeat (since the clock start `t0` before the first one); and when the
timeline is chronological, every heartbeat arrives less than `MAX_TIME_BLOCKED`
after the previous one and the polls lie between heartbeats, no poll alerts. -/
theorem no_alert_while_heartbeats_arrive (Q_OS_WIN : Bool) (s : UiWatchdog)
    (w : UiWatchdogWorker) (t0 : Int) (tl : List Tick)
    (hui : s.m_uiTimer.active = true) (hw : s.m_worker = some w)
    (hwt : w.m_watchTimer.active = true)
    (hc : w.m_elapsedTimeSinceLastBeat.t1 = some t0) :
    ∃ s1 acts, run Q_OS_WIN s (tl.map Tick.toEvent) = some (s1, acts) ∧
      clockReads acts = elapsedSinceLastBeat t0 tl ∧
      (chronological t0 tl = true → beatGapsBelow MAX_TIME_BLOCKED t0 tl = true →
        endsWithBeat tl = true → alertCount acts = 0) := by
  refine ⟨_, _, run_ticks Q_OS_WIN tl s w t0 hui hw hwt hc, ?_, ?_⟩
  · exact clockReads_tickTrace Q_OS_WIN w.m_options tl t0
  · intro hch hgap hend
    exact alertCount_tickTrace_zero Q_OS_WIN w.m_options tl t0 t0 hch hgap hend

/-- C2, on the two timelines of the specification: heartbeats every 50 ms for
5000 ms with polls every 200 ms give no alert, and after a heartbeat at 299 the
poll at 499 reads 200 and does not alert. -/
theorem no_alert_while_heartbeats_arrive_witness :
    (∃ s1 acts,
      run false (runningAt OptionNone 50 0) (steadyTimeline.map Tick.toEvent) = some (s1, acts) ∧
      alertCount acts = 0) ∧
    (∃ s1 acts,
      run false (runningAt OptionNone 100 0)
        ([Tick.beat 299, Tick.poll 499, Tick.beat 598].map Tick.toEvent) = some (s1, acts) ∧
      clockReads acts = [200] ∧ alertCount acts = 0) := by
  constructor
  · obtain ⟨s1, acts, h1, _, h3⟩ := no_alert_while_heartbeats_arrive false
      (runningAt OptionNone 50 0)
      { m_watchTimer := { active := true, interval := 50 }
        m_elapsedTimeSinceLastBeat := { t1 := some 0 }
        m_options := OptionNone } 0 steadyTimeline rfl rfl rfl rfl
    exact ⟨s1, acts, h1, h3 (by decide) (by decide) (by decide)⟩
  · obtain ⟨s1, acts, h1, h2, h3⟩ := no_alert_while_heartbeats_arrive false
      (runningAt OptionNone 100 0)
      { m_watchTimer := { active := true, interval := 100 }
        m_elapsedTimeSinceLastBeat := { t1 := some 0 }
        m_options := OptionNone } 0 [Tick.beat 299, Tick.poll 499, Tick.beat 598]
      rfl rfl rfl rfl
    exact ⟨s1, acts, h1, h2, h3 (by decide) (by decide) (by decide)⟩

/-! ## Stall detection -/

/-- C3: when the last heartbeat was at `t0` and the poll timer, started at
`s ≤ t0`, fires every `P > 0` at `s + P`, `s + 2 * P`, and so on, there is a first
alerting poll, at an instant later than `t0 + MAX_TIME_BLOCKED` and no later
than `t0 + MAX_TIME_BLOCKED + P`; the polls before it do not alert, and it and
every later poll alert exactly once each, the earlier polls leaving the
watchdog unchanged. -/
theorem stall_alerts_within_bound_and_persist (Q_OS_WIN : Bool) (st : UiWatchdog)
    (w : UiWatchdogWorker) (t0 s P : Int)
    (hw : st.m_worker = some w) (hwt : w.m_watchTimer.active = true)
    (hc : w.m_elapsedTimeSinceLastBeat.t1 = some t0) (hP : 0 < P) (hs : s ≤ t0) :
    ∃ k : Nat,
      t0 + MAX_TIME_BLOCKED < s + ((k : Int) + 1) * P ∧
      s + ((k : Int) + 1) * P ≤ t0 + MAX_TIME_BLOCKED + P ∧
      ∀ j : Nat, ∃ acts0 acts,
        run Q_OS_WIN st ((pollsEvery s P j).map Tick.toEvent) = some (st, acts0) ∧
        dispatch Q_OS_WIN st (Event.watchTimeout (s + ((j : Int) + 1) * P)) = some (st, acts) ∧
        alertCount acts = if k ≤ j then 1 else 0 := by
  have hD : 0 ≤ t0 + MAX_TIME_BLOCKED - s := by
    have : MAX_TIME_BLOCKED = 300 := rfl
    omega
  have hq : 0 ≤ (t0 + MAX_TIME_BLOCKED - s) / P := Int.ediv_nonneg hD (le_of_lt hP)
  have hlo : (t0 + MAX_TIME_BLOCKED - s) / P * P ≤ t0 + MAX_TIME_BLOCKED - s :=
    Int.ediv_mul_le _ (ne_of_gt hP)
  have hhi : t0 + MAX_TIME_BLOCKED - s < ((t0 + MAX_TIME_BLOCKED - s) / P + 1) * P :=
    Int.lt_ediv_add_one_mul_self _ hP
  have hk : (((t0 + MAX_TIME_BLOCKED - s) / P).toNat : Int) = (t0 + MAX_TIME_BLOCKED - s) / P :=
    Int.toNat_of_nonneg hq
  refine ⟨((t0 + MAX_TIME_BLOCKED - s) / P).toNat, ?_, ?_, ?_⟩
  · rw [hk]; linarith
  · rw [hk]; linarith
  · intro j
    have hrun : run Q_OS_WIN st ((pollsEvery s P j).map Tick.toEvent)
        = some (st, tickTrace Q_OS_WIN w.m_options t0
            (((List.range j).map (fun i : Nat => s + ((i : Int) + 1) * P)).map Tick.poll)) := by
      have hpe : pollsEvery s P j
          = ((List.range j).map (fun i : Nat => s + ((i : Int) + 1) * P)).map Tick.poll := by
        unfold pollsEvery
        rw [List.map_map]
        rfl
      rw [hpe]
      exact run_polls Q_OS_WIN st w t0 hw hwt hc _
    refine ⟨_, _, hrun, dispatch_poll Q_OS_WIN st w t0 _ hw hwt hc, ?_⟩
    rw [alertCount_poll]
    by_cases hkj : ((t0 + MAX_TIME_BLOCKED - s) / P).toNat ≤ j
    · have h1 : (t0 + MAX_TIME_BLOCKED - s) / P ≤ (j : Int) := by
        rw [← hk]; exact_mod_cast hkj
      have h2 : ((t0 + MAX_TIME_BLOCKED - s) / P + 1) * P ≤ ((j : Int) + 1) * P :=
        Int.mul_le_mul_of_nonneg_right (by linarith) (le_of_lt hP)
      have h3 : MAX_TIME_BLOCKED < s + ((j : Int) + 1) * P - t0 := by linarith
      simp [hkj, h3]
    · have h1 : (j : Int) + 1 ≤ (t0 + MAX_TIME_BLOCKED - s) / P := by
        have : (j : Int) < (((t0 + MAX_TIME_BLOCKED - s) / P).toNat : Int) := by
          exact_mod_cast (Nat.lt_of_not_le hkj)
        rw [hk] at this
        omega
      have h2 : ((j : Int) + 1) * P ≤ (t0 + MAX_TIME_BLOCKED - s) / P * P :=
        Int.mul_le_mul_of_nonneg_right h1 (le_of_lt hP)
      have h3 : ¬ MAX_TIME_BLOCKED < s + ((j : Int) + 1) * P - t0 := by linarith
      simp [hkj, h3]

/-- C3, with the numbers of the specification: last heartbeat at 0, polls every
200 from 0. The poll at 200 does not alert, and the polls at 400, 600 and 800
alert once each; 400 is within 300 + 200 of the last heartbeat. -/
theorem stall_alerts_within_bound_and_persist_witness :
    (∃ k : Nat,
      (0 : Int) + MAX_TIME_BLOCKED < 0 + ((k : Int) + 1) * 200 ∧
      (0 : Int) + ((k : Int) + 1) * 200 ≤ 0 + MAX_TIME_BLOCKED + 200 ∧
      ∀ j : Nat, ∃ acts0 acts,
        run false (runningAt OptionNone 200 0) ((pollsEvery 0 200 j).map Tick.toEvent)
          = some (runningAt OptionNone 200 0, acts0) ∧
        dispatch false (runningAt OptionNone 200 0)
            (Event.watchTimeout (0 + ((j : Int) + 1) * 200))
          = some (runningAt OptionNone 200 0, acts) ∧
        alertCount acts = if k ≤ j then 1 else 0) ∧
    ((run false (runningAt OptionNone 200 0) ((pollsEvery 0 200 4).map Tick.toEvent)).map
        (fun r => (clockReads r.2, alertCount r.2)) = some ([200, 400, 600, 800], 3)) :=
  ⟨stall_alerts_within_bound_and_persist false (runningAt OptionNone 200 0)
      { m_watchTimer := { active := true, interval := 200 }
        m_elapsedTimeSinceLastBeat := { t1 := some 0 }
        m_options := OptionNone } 0 0 200 rfl rfl rfl (by decide) (by decide),
   by decide⟩

/-! ## Lifecycle -/

/-- C4: `start` directly after `start` and `stop` directly after `stop` do
nothing: the second call returns the state unchanged with no action (no worker
or thread is created, the heartbeat timer is not restarted, nothing is joined),
so two calls in a row give the same state and trace as one. -/
theorem start_and_stop_idempotent (Q_OS_WIN : Bool) (s : UiWatchdog) (i j : Int)
    (d1 d2 : Bool) :
    (s.start i).1.start j = ((s.start i).1, []) ∧
    run Q_OS_WIN s [Event.callStart i, Event.callStart j] = run Q_OS_WIN s [Event.callStart i] ∧
    (s.stop d1).bind (fun r => r.1.stop d2) = (s.stop d1).map (fun r => (r.1, [])) ∧
    run Q_OS_WIN s [Event.callStop d1, Event.callStop d2] = run Q_OS_WIN s [Event.callStop d1] ∧
    ({ s with m_worker := none } : UiWatchdog).stop d2
      = some (({ s with m_worker := none } : UiWatchdog), []) := by
  obtain ⟨ui, th, wk, op⟩ := s
  cases wk <;> cases th <;> cases d1 <;>
    simp [UiWatchdog.start, UiWatchdog.stop, QThread.destroy, run, dispatch]

/-- C5: on a Running watchdog `stop` releases everything only when the bounded
wait succeeded: it then stops the heartbeat timer, nulls `m_worker` and
`m_watchDogThread` and returns. When the wait timed out, `stop` goes on to
`delete m_watchDogThread` all the same, the thread is still running, and the
call does not return: the watchdog is not left Stopped. -/
theorem stop_does_not_return_after_timed_out_join (ui : QTimer) (th : QThread)
    (w : UiWatchdogWorker) (options : Int) :
    UiWatchdog.stop
        { m_uiTimer := ui, m_watchDogThread := some th, m_worker := some w,
          m_options := options } false = none ∧
    UiWatchdog.stop
        { m_uiTimer := ui, m_watchDogThread := some th, m_worker := some w,
          m_options := options } true
      = some ({ m_uiTimer := { active := false, interval := ui.interval }
                m_watchDogThread := none
                m_worker := none
                m_options := options },
              [Action.uiTimerStop, Action.workerDeleteLater, Action.threadQuit,
               Action.threadWait joinBound true, Action.quitLog true,
               Action.deleteThread]) ∧
    run false (UiWatchdog.new OptionNone)
        [Event.callStart 100, Event.threadStarted 0, Event.callStop false] = none := by
  refine ⟨rfl, rfl, rfl⟩

/-- C6: in every state reached from a freshly constructed watchdog by a
sequence of `start` and `stop` calls, thread-start deliveries, heartbeat
timeouts and poll timeouts, the threads created and not yet deleted are exactly
the one `m_watchDogThread` points to, hence at most one; `m_worker` is set iff
`m_watchDogThread` is set iff `m_uiTimer` is active; and the next heartbeat
timeout does not fail, `onUiBeat` finding the worker whenever the heartbeat
timer is active. Every sequence in which no join times out reaches a state. -/
theorem at_most_one_thread_and_members_agree (Q_OS_WIN : Bool) (options : Int)
    (evs : List Event) :
    (∀ s acts, run Q_OS_WIN (UiWatchdog.new options) evs = some (s, acts) →
      threadsCreated acts = threadsDeleted acts + heldThreads s ∧
      threadsCreated acts ≤ threadsDeleted acts + 1 ∧
      s.m_worker.isSome = s.m_watchDogThread.isSome ∧
      s.m_watchDogThread.isSome = s.m_uiTimer.active ∧
      (∀ now, (dispatch Q_OS_WIN s (Event.uiTimeout now)).isSome = true) ∧
      (∀ now, (s.onUiBeat now).isSome = s.m_uiTimer.active)) ∧
    ((∀ e ∈ evs, e ≠ Event.callStop false) →
      ∃ s acts, run Q_OS_WIN (UiWatchdog.new options) evs = some (s, acts)) := by
  refine ⟨?_, run_returns Q_OS_WIN options evs (UiWatchdog.new options)
    (new_consistent options).1 (new_consistent options).2⟩
  intro s acts hr
  obtain ⟨hc, ho, ht⟩ := run_preserves Q_OS_WIN options evs
    (UiWatchdog.new options) (new_consistent options).1 (new_consistent options).2 s acts hr
  have h0 : heldThreads (UiWatchdog.new options) = 0 := rfl
  have h1 : heldThreads s ≤ 1 := by
    unfold heldThreads
    split <;> omega
  refine ⟨by omega, by omega, hc.1, hc.2.1, ?_, ?_⟩
  · intro now
    rcases dispatch_cases Q_OS_WIN options s (Event.uiTimeout now) hc ho with
      ⟨_, he⟩ | ⟨s1, a1, hd, _⟩
    · cases he
    · simp [hd]
  · intro now
    have hwu : s.m_worker.isSome = s.m_uiTimer.active := hc.1.trans hc.2.1
    rw [← hwu]
    unfold UiWatchdog.onUiBeat
    cases s.m_worker <;> rfl

/-- C6, on two start/stop cycles with a repeated `start` and a repeated `stop`:
the run returns in a state where the invariant holds; two threads were created
and two deleted and none is held at the end, and one is held after the second
`start`. -/
theorem at_most_one_thread_and_members_agree_witness :
    (∃ s acts,
      run false (UiWatchdog.new OptionNone)
        [Event.callStart 100, Event.threadStarted 0, Event.uiTimeout 100,
         Event.watchTimeout 200, Event.callStop true, Event.callStart 50,
         Event.callStart 70, Event.threadStarted 900, Event.callStop true,
         Event.callStop true] = some (s, acts) ∧
      threadsCreated acts = threadsDeleted acts + heldThreads s ∧
      threadsCreated acts ≤ threadsDeleted acts + 1 ∧
      s.m_worker.isSome = s.m_watchDogThread.isSome ∧
      s.m_watchDogThread.isSome = s.m_uiTimer.active ∧
      (∀ now, (s.onUiBeat now).isSome = s.m_uiTimer.active)) ∧
    ((run false (UiWatchdog.new OptionNone)
        [Event.callStart 100, Event.threadStarted 0, Event.uiTimeout 100,
         Event.watchTimeout 200, Event.callStop true, Event.callStart 50,
         Event.callStart 70, Event.threadStarted 900, Event.callStop true,
         Event.callStop true]).map
        (fun r => (threadsCreated r.2, threadsDeleted r.2, heldThreads r.1))
      = some (2, 2, 0)) ∧
    ((run false (UiWatchdog.new OptionNone)
        [Event.callStart 100, Event.threadStarted 0, Event.uiTimeout 100,
         Event.watchTimeout 200, Event.callStop true, Event.callStart 50,
         Event.callStart 70]).map
        (fun r => (threadsCreated r.2, threadsDeleted r.2, heldThreads r.1))
      = some (2, 1, 1)) := by
  refine ⟨?_, by decide, by decide⟩
  obtain ⟨s, acts, hr⟩ := (at_most_one_thread_and_members_agree false OptionNone
    [Event.callStart 100, Event.threadStarted 0, Event.uiTimeout 100,
     Event.watchTimeout 200, Event.callStop true, Event.callStart 50,
     Event.callStart 70, Event.threadStarted 900, Event.callStop true,
     Event.callStop true]).2 (by decide)
  obtain ⟨h1, h2, h3, h4, _, h6⟩ := (at_most_one_thread_and_members_agree false OptionNone
    [Event.callStart 100, Event.threadStarted 0, Event.uiTimeout 100,
     Event.watchTimeout 200, Event.callStop true, Event.callStart 50,
     Event.callStart 70, Event.threadStarted 900, Event.callStop true,
     Event.callStop true]).1 s acts hr
  exact ⟨s, acts, hr, h1, h2, h3, h4, h6⟩

/-! ## What `start` passes on -/

/-- C7, amended: after `start(i)` on a Stopped watchdog and the delivery of the
thread's `started` signal, the worker's poll timer runs with interval `i`, the
heartbeat interval itself; the worker's own default of 200 is not used. -/
theorem worker_polls_at_heartbeat_interval (Q_OS_WIN : Bool) (s : UiWatchdog) (i now : Int)
    (hs : s.m_worker = none) :
    ∃ s1 acts, run Q_OS_WIN s [Event.callStart i, Event.threadStarted now] = some (s1, acts) ∧
      s1.m_uiTimer = { active := true, interval := i } ∧
      s1.m_worker.map (fun w => w.m_watchTimer)
        = some { active := true, interval := i } ∧
      acts = [Action.uiTimerStart i, Action.newWorker s.m_options, Action.newThread,
              Action.moveToThread, Action.threadStart, Action.connectStarted i,
              Action.watchTimerStart i, Action.clockWrite] := by
  obtain ⟨ui, th, wk, op⟩ := s
  simp only at hs
  subst hs
  exact ⟨_, _, rfl, rfl, rfl, rfl⟩

/-- C7, amended, on a fresh watchdog started with 150. -/
theorem worker_polls_at_heartbeat_interval_witness :
    ∃ s1 acts,
      run false (UiWatchdog.new OptionNone) [Event.callStart 150, Event.threadStarted 0]
        = some (s1, acts) ∧
      s1.m_uiTimer = { active := true, interval := 150 } ∧
      s1.m_worker.map (fun w => w.m_watchTimer)
        = some { active := true, interval := 150 } ∧
      acts = [Action.uiTimerStart 150, Action.newWorker (UiWatchdog.new OptionNone).m_options,
              Action.newThread, Action.moveToThread, Action.threadStart,
              Action.connectStarted 150, Action.watchTimerStart 150, Action.clockWrite] :=
  worker_polls_at_heartbeat_interval false (UiWatchdog.new OptionNone) 150 0 rfl

/-- C7 as stated fails: after `start(100)` the worker's poll timer runs with
interval 100, not with the default 200, and it follows the argument (150 after
`start(150)`). -/
theorem poll_interval_is_not_the_default :
    (run false (UiWatchdog.new OptionNone) [Event.callStart 100, Event.threadStarted 0]).map
        (fun r => r.1.m_worker.map (fun w => w.m_watchTimer))
      = some (some { active := true, interval := 100 }) ∧
    (100 : Int) ≠ workerDefaultFrequency ∧
    (run false (UiWatchdog.new OptionNone) [Event.callStart 150, Event.threadStarted 0]).map
        (fun r => r.1.m_worker.map (fun w => w.m_watchTimer))
      ≠ (run false (UiWatchdog.new OptionNone) [Event.callStart 100, Event.threadStarted 0]).map
        (fun r => r.1.m_worker.map (fun w => w.m_watchTimer)) := by
  decide

/-- C8, amended: `start` does not inspect its argument. On a Stopped watchdog
`start(i)` does the same for every `i`, positive or not: it starts the
heartbeat timer with `i`, creates the worker and the thread, connects the
lambda capturing `i`, and leaves the watchdog Running. -/
theorem start_accepts_any_interval (s : UiWatchdog) (i : Int) (hs : s.m_worker = none) :
    s.start i
      = ({ m_uiTimer := { active := true, interval := i }
           m_watchDogThread := some { started := true, startedSlot := some i }
           m_worker := some (UiWatchdogWorker.new s.m_options)
           m_options := s.m_options },
         [Action.uiTimerStart i, Action.newWorker s.m_options, Action.newThread,
          Action.moveToThread, Action.threadStart, Action.connectStarted i]) ∧
    (s.start i).1.m_worker.isSome = true := by
  obtain ⟨ui, th, wk, op⟩ := s
  simp only at hs
  subst hs
  exact ⟨rfl, rfl⟩

/-- C8, amended, at the interval -5 on a fresh watchdog. -/
theorem start_accepts_any_interval_witness :
    (UiWatchdog.new OptionNone).start (-5)
      = ({ m_uiTimer := { active := true, interval := -5 }
           m_watchDogThread := some { started := true, startedSlot := some (-5) }
           m_worker := some (UiWatchdogWorker.new (UiWatchdog.new OptionNone).m_options)
           m_options := (UiWatchdog.new OptionNone).m_options },
         [Action.uiTimerStart (-5), Action.newWorker (UiWatchdog.new OptionNone).m_options,
          Action.newThread, Action.moveToThread, Action.threadStart,
          Action.connectStarted (-5)]) ∧
    ((UiWatchdog.new OptionNone).start (-5)).1.m_worker.isSome = true :=
  start_accepts_any_interval (UiWatchdog.new OptionNone) (-5) rfl

/-- C8 as stated fails: `start(0)` and `start(-5)` on a fresh, Stopped watchdog
leave it Running, with thread and active heartbeat timer, and their only
actions are those of a successful start. -/
theorem start_with_nonpositive_interval_runs :
    ((UiWatchdog.new OptionNone).m_worker.isSome = false) ∧
    (((UiWatchdog.new OptionNone).start 0).1.m_worker.isSome = true) ∧
    (((UiWatchdog.new OptionNone).start (-5)).1.m_worker.isSome = true) ∧
    (((UiWatchdog.new OptionNone).start (-5)).1.m_watchDogThread.isSome = true) ∧
    (((UiWatchdog.new OptionNone).start (-5)).1.m_uiTimer
      = { active := true, interval := -5 }) ∧
    (((UiWatchdog.new OptionNone).start (-5)).2
      = [Action.uiTimerStart (-5), Action.newWorker OptionNone, Action.newThread,
         Action.moveToThread, Action.threadStart, Action.connectStarted (-5)]) := by
  decide

/-! ## The mutex -/

/-- C9: `reset` writes the clock and `checkUI` reads it between a lock and its
unlock, and `checkUI` has released the mutex before it logs or breaks; but
`UiWatchdogWorker::start` writes the clock with no lock at all, so its trace,
and the trace of starting a watchdog, break the lock discipline. -/
theorem worker_start_writes_clock_without_lock (Q_OS_WIN : Bool) (w : UiWatchdogWorker)
    (frequency_msecs now : Int) :
    (w.start frequency_msecs now).2
      = [Action.watchTimerStart frequency_msecs, Action.clockWrite] ∧
    lockDiscipline false (w.start frequency_msecs now).2 = false ∧
    (run Q_OS_WIN (UiWatchdog.new OptionNone)
        [Event.callStart 100, Event.threadStarted 0]).map (fun r => lockDiscipline false r.2)
      = some false ∧
    lockDiscipline false (w.reset now).2 = true ∧
    (w.checkUI Q_OS_WIN now).all (lockDiscipline false) = true := by
  refine ⟨rfl, rfl, rfl, rfl, ?_⟩
  obtain ⟨wt, ⟨c⟩, o⟩ := w
  cases c with
  | none => rfl
  | some t0 =>
    have h := lockDiscipline_checkElapsed Q_OS_WIN o (now - t0)
    simpa [UiWatchdogWorker.checkUI, QElapsedTimer.elapsed, lockDiscipline] using h

/-! ## Options -/

/-- C10, amended: in every state reached from a watchdog constructed with
`options`, the watchdog and its worker still hold `options`; a poll there
alerts iff the elapsed value exceeds `MAX_TIME_BLOCKED`, and calls
`DebugBreak()` exactly once iff moreover the `OptionDebugBreak` bit of
`options` is set and the code is compiled with `Q_OS_WIN`; so never without an
alert, never with `OptionNone`, and never in a build without `Q_OS_WIN`. -/
theorem debugBreak_iff_alert_flag_and_windows (Q_OS_WIN : Bool) (options : Int)
    (evs : List Event) (s : UiWatchdog) (acts0 : List Action) (w : UiWatchdogWorker)
    (now e : Int)
    (hrun : run Q_OS_WIN (UiWatchdog.new options) evs = some (s, acts0))
    (hw : s.m_worker = some w)
    (he : w.m_elapsedTimeSinceLastBeat.elapsed now = some e) :
    s.m_options = options ∧ w.m_options = options ∧
    ∃ acts, w.checkUI Q_OS_WIN now = some acts ∧
      alertCount acts = (if MAX_TIME_BLOCKED < e then 1 else 0) ∧
      breakCount acts
        = (if Q_OS_WIN = true ∧ MAX_TIME_BLOCKED < e ∧ Int.land options OptionDebugBreak ≠ 0
           then 1 else 0) ∧
      (options = OptionNone → breakCount acts = 0) ∧
      (options = OptionDebugBreak →
        breakCount acts = if Q_OS_WIN = true ∧ MAX_TIME_BLOCKED < e then 1 else 0) ∧
      (Q_OS_WIN = false → breakCount acts = 0) := by
  obtain ⟨_, ho, _⟩ := run_preserves Q_OS_WIN options evs
    (UiWatchdog.new options) (new_consistent options).1 (new_consistent options).2
    s acts0 hrun
  have hwo : w.m_options = options := ho.2 w hw
  refine ⟨ho.1, hwo, ?_⟩
  obtain ⟨wt, ⟨c⟩, o⟩ := w
  simp only at hwo
  subst hwo
  cases c with
  | none => simp [QElapsedTimer.elapsed] at he
  | some t0 =>
    simp only [QElapsedTimer.elapsed, Option.some.injEq] at he
    subst he
    have hb := breakCount_checkElapsed Q_OS_WIN o (now - t0)
    have hbc : breakCount ([Action.mutexLock, Action.clockRead (now - t0), Action.mutexUnlock]
        ++ UiWatchdogWorker.checkElapsed Q_OS_WIN o (now - t0))
        = breakCount (UiWatchdogWorker.checkElapsed Q_OS_WIN o (now - t0)) := by
      simp [breakCount]
    refine ⟨_, rfl, alertCount_poll Q_OS_WIN o (now - t0), ?_, ?_, ?_, ?_⟩
    · rw [hbc, hb]
    · intro hnone
      rw [hbc, hb, hnone]
      have : Int.land OptionNone OptionDebugBreak = 0 := by decide
      simp [this]
    · intro hdb
      rw [hbc, hb, hdb]
      have : Int.land OptionDebugBreak OptionDebugBreak ≠ 0 := by decide
      simp [this]
    · intro hq
      rw [hbc, hb, hq]
      simp

/-- C10, amended, on a watchdog constructed with `OptionDebugBreak`, started,
and polled at 301 in a build with `Q_OS_WIN`: one alert and one `DebugBreak()`. -/
theorem debugBreak_iff_alert_flag_and_windows_witness :
    (runningAt OptionDebugBreak 100 0).m_options = OptionDebugBreak ∧
    ∃ acts,
      UiWatchdogWorker.checkUI true
        { m_watchTimer := { active := true, interval := 100 }
          m_elapsedTimeSinceLastBeat := { t1 := some 0 }
          m_options := OptionDebugBreak } 301 = some acts ∧
      alertCount acts = 1 ∧ breakCount acts = 1 := by
  obtain ⟨h1, _, acts, h3, h4, h5, _⟩ := debugBreak_iff_alert_flag_and_windows true
    OptionDebugBreak [Event.callStart 100, Event.threadStarted 0]
    (runningAt OptionDebugBreak 100 0)
    [Action.uiTimerStart 100, Action.newWorker OptionDebugBreak, Action.newThread,
     Action.moveToThread, Action.threadStart, Action.connectStarted 100,
     Action.watchTimerStart 100, Action.clockWrite]
    { m_watchTimer := { active := true, interval := 100 }
      m_elapsedTimeSinceLastBeat := { t1 := some 0 }
      m_options := OptionDebugBreak } 301 301 (by decide) rfl (by decide)
  refine ⟨h1, acts, h3, ?_, ?_⟩
  · rw [h4]; decide
  · rw [h5]; decide

/-- C10 as stated fails: in a build without `Q_OS_WIN`, a watchdog constructed
with `OptionDebugBreak`, started and polled with an elapsed value of 301 raises
the alert and does not call `DebugBreak()`. -/
theorem alert_without_debug_break :
    (run false (UiWatchdog.new OptionDebugBreak)
        [Event.callStart 100, Event.threadStarted 0, Event.watchTimeout 301]).map
      (fun r => (r.1.m_options, r.1.m_worker.map (fun w => w.m_options),
                 alertCount r.2, breakCount r.2))
      = some (OptionDebugBreak, some OptionDebugBreak, 1, 0) ∧
    UiWatchdogWorker.checkUI false
        { m_watchTimer := { active := true, interval := 100 }
          m_elapsedTimeSinceLastBeat := { t1 := some 0 }
          m_options := OptionDebugBreak } 301
      = some [Action.mutexLock, Action.clockRead 301, Action.mutexUnlock,
              Action.blockedLog 301] := by
  decide

end KDToolBox
